import Mathlib

/-!
Verification of the Fingerprinting & Grouping Variant Engine described in
`spec.md`, together with the `ExploreCharts` series-substitution logic of
`src/static/app/views/explore/charts/index.tsx`.

The engine's implementation is not under `src/` (only its recorded test
snapshot `fingerprint_exception_type_and_module2.pysnap` is), so the engine
definitions below are modelled from the spec's own description and checked
against the snapshot data, which is embedded verbatim.  The `ExploreCharts`
definitions are translated directly from the TypeScript source.
-/

/-- The literal text of the default-placeholder token, `{{ default }}`. -/
def defaultPlaceholder : String := "\x7b\x7b default \x7d\x7d"

/-- Modelled from the spec: a fingerprint Token is either a literal string or
the tagged `{{ default }}` placeholder (spec section 3, Token; section 9 says
the placeholder is a tagged variant, not a magic string). -/
inductive FToken where
  | lit (s : String)
  | dflt
  deriving DecidableEq, Repr

/-- Modelled from the spec: rendering a token back to its configured textual
form, as the snapshot displays it (`client_values` entries). -/
def renderToken : FToken → String
  | .lit s => s
  | .dflt => defaultPlaceholder

/-- Modelled from the spec: the fixed recognized set of matcher attribute keys
(spec section 3, Matcher; section 6, event attribute bag). -/
inductive AttrKey where
  | type | value | module | message | logger | family | sdk
  deriving DecidableEq, Repr

/-- Modelled from the spec: the configured name of each attribute key. -/
def attrKeyName : AttrKey → String
  | .type => "type"
  | .value => "value"
  | .module => "module"
  | .message => "message"
  | .logger => "logger"
  | .family => "family"
  | .sdk => "sdk"

/-- Modelled from the spec: a Matcher is an `(attribute_key, pattern)` pair. -/
structure Matcher where
  key : AttrKey
  pattern : String
  deriving DecidableEq, Repr

/-- Modelled from the spec: a Rule is an ordered list of matchers (conjunction),
a fingerprint template, and opaque auxiliary attributes. -/
structure Rule where
  matchers : List Matcher
  fingerprint : List FToken
  attributes : List (String × String)
  deriving DecidableEq, Repr

/-- Modelled from the spec: a Rule Set is a schema version plus an ordered
sequence of rules; order is significant (first full match wins). -/
structure RuleSet where
  version : Nat
  rules : List Rule
  deriving DecidableEq, Repr

/-- Modelled from the spec: the event attribute bag, a mapping from attribute
keys to string values or absence. -/
structure Event where
  attrs : List (AttrKey × String)
  deriving DecidableEq, Repr

/-- Modelled from the spec: glob pattern compilation splits the pattern on `*`
(spec section 4.1); `splitOnStar` returns the literal segments between the
wildcards, keeping empty segments at the ends and between adjacent stars. -/
def splitOnStar : List Char → List (List Char)
  | [] => [[]]
  | c :: cs =>
    match splitOnStar cs with
    | [] => [[c]]
    | s :: rest => if c = '*' then [] :: s :: rest else (c :: s) :: rest

/-- Modelled from the spec: scan for the first occurrence of `needle` in the
value and return the remainder after it, consuming a wildcard span (spec
section 4.1: contain the interior segments in order). -/
def dropAfterFirst (needle : List Char) : List Char → Option (List Char)
  | [] => if needle.isEmpty then some [] else none
  | c :: rest =>
    if needle.isPrefixOf (c :: rest) then some ((c :: rest).drop needle.length)
    else dropAfterFirst needle rest

/-- Modelled from the spec: match the segments that follow the first one; each
interior segment must occur in order, and the value must end with the last
segment (spec section 4.1). -/
def matchSegs : List (List Char) → List Char → Bool
  | [], v => v.isEmpty
  | [s], v => s.isSuffixOf v
  | s :: s2 :: rest, v =>
    match dropAfterFirst s v with
    | none => false
    | some v' => matchSegs (s2 :: rest) v'

/-- Modelled from the spec: anchored glob matching (spec section 4.1).  The
pattern is split on `*`; with no wildcard the whole value must equal the
pattern; otherwise the value must start with the first segment, contain the
interior segments in order, and end with the last segment. -/
def globMatch (pattern value : String) : Bool :=
  match splitOnStar pattern.data with
  | [] => false
  | [s] => value.data = s
  | s :: s2 :: rest =>
    s.isPrefixOf value.data && matchSegs (s2 :: rest) (value.data.drop s.length)

/-- Modelled from the spec: resolve a matcher's attribute key on the event;
an absent attribute is a non-match, not an error (spec section 4.1). -/
def matcherMatches (ev : Event) (m : Matcher) : Bool :=
  match List.lookup m.key ev.attrs with
  | none => false
  | some v => globMatch m.pattern v

/-- Modelled from the spec: a Rule matches iff every Matcher in it matches
(conjunction, spec section 4.2). -/
def ruleEvaluate (r : Rule) (ev : Event) : Bool :=
  r.matchers.all (matcherMatches ev)

/-- Modelled from the spec: the resolver scans the rules in declared order and
returns the first rule whose evaluation succeeds (spec section 4.3). -/
def resolveRule (rs : RuleSet) (ev : Event) : Option Rule :=
  rs.rules.find? (fun r => ruleEvaluate r ev)

/-- Modelled from the spec: token expansion; literals are emitted as-is and
each `{{ default }}` placeholder is replaced, in place, by the full ordered
`default_tokens` sequence (spec section 4.3). -/
def expandTokens (fp : List FToken) (defaultTokens : List String) : List String :=
  fp.flatMap (fun t =>
    match t with
    | .lit s => [s]
    | .dflt => defaultTokens)

/-- Modelled from the spec: the result of fingerprint resolution, carrying the
as-configured token list, the expanded token list, and the matched rule
(spec section 4.3 contract). -/
structure FingerprintResult where
  clientTokens : List FToken
  fingerprintTokens : List String
  matchedRule : Option Rule
  deriving DecidableEq, Repr

/-- Modelled from the spec: `resolve_fingerprint` picks the first matching rule
(falling back to the built-in default fingerprint, exactly the one-token
template `[{{ default }}]`) and expands its template (spec section 4.3). -/
def resolve_fingerprint (rs : RuleSet) (ev : Event) (defaultTokens : List String) :
    FingerprintResult :=
  let r? := resolveRule rs ev
  let ctoks :=
    match r? with
    | some r => r.fingerprint
    | none => [FToken.dflt]
  ⟨ctoks, expandTokens ctoks defaultTokens, r?⟩

/-- Modelled from the spec: a per-strategy grouping component supplied by the
upstream default grouping strategy (spec section 3, Grouping Component). -/
structure GroupingComponent where
  contributes : Bool
  hint : Option String
  vals : List String
  deriving DecidableEq, Repr

/-- Modelled from the spec: the contribution/hint pair attached to a variant,
shown under the `component` key in the snapshot. -/
structure VariantComponent where
  contributes : Bool
  hint : Option String
  deriving DecidableEq, Repr

/-- Modelled from the spec: a grouping variant as recorded in the snapshot:
a type tag, the displayed `client_values` and `values` token lists, and the
contribution data (spec section 3, Grouping Variant). -/
structure GroupingVariant where
  vtype : String
  client_values : List String
  values : List String
  component : VariantComponent
  deriving DecidableEq, Repr

/-- The hint placed on a non-contributing axis variant when the system axis
takes precedence (spec section 4.4). -/
def exceptionOfSystemHint : String := "exception of system takes precedence"

/-- Modelled from the spec: `build_variants` constructs one salted-component
variant per base grouping axis present and applies the precedence policy of
spec section 4.4: if the `system` component is present and eligible (its own
upstream `contributes` flag is true, or it is the only available axis) the
`system` variant contributes and the `app` variant is marked
`contributes = false` with the takes-precedence hint; a lone axis always
contributes with a null hint.  Exactly one present axis contributes.  The
snapshot (the repository's only record of `build_variants` output) shows both
`client_values` and `values` equal to the rendered as-configured tokens, the
`{{ default }}` placeholder included, so `values` follows the snapshot rather
than the spec sentence that calls it fully expanded. -/
def build_variants (res : FingerprintResult)
    (appComp sysComp : Option GroupingComponent) :
    List (String × GroupingVariant) :=
  let cv := res.clientTokens.map renderToken
  match appComp, sysComp with
  | none, none => []
  | some _, none => [("app", ⟨"salted_component", cv, cv, ⟨true, none⟩⟩)]
  | none, some _ => [("system", ⟨"salted_component", cv, cv, ⟨true, none⟩⟩)]
  | some _, some sc =>
    if sc.contributes then
      [("app", ⟨"salted_component", cv, cv, ⟨false, some exceptionOfSystemHint⟩⟩),
       ("system", ⟨"salted_component", cv, cv, ⟨true, none⟩⟩)]
    else
      [("app", ⟨"salted_component", cv, cv, ⟨true, none⟩⟩),
       ("system", ⟨"salted_component", cv, cv, ⟨false, none⟩⟩)]

/-- Modelled from the spec: the rendered human-readable form of a rule, as the
snapshot's `text` field shows it: each matcher as `key:"pattern"` separated by
spaces, then ` -> `, then each fingerprint token quoted. -/
def renderRuleText (r : Rule) : String :=
  String.intercalate " " (r.matchers.map
      (fun m => attrKeyName m.key ++ ":\"" ++ m.pattern ++ "\""))
    ++ " -> "
    ++ String.intercalate " " (r.fingerprint.map
      (fun t => "\"" ++ renderToken t ++ "\""))

/-! Embedded snapshot data, copied from
`src/tests/sentry/grouping/snapshots/test_fingerprinting/test_event_hash_variant/fingerprint_exception_type_and_module2.pysnap`. -/

/-- The single configured rule of the snapshot's `config.rules`. -/
def fixtureRule : Rule :=
  { matchers := [⟨AttrKey.type, "DatabaseUnavailable"⟩,
                 ⟨AttrKey.module, "invalid.databasestuff.*"⟩],
    fingerprint := [FToken.lit "database-unavailable"],
    attributes := [] }

/-- The snapshot's `config` mapping (version 1, one rule). -/
def fixtureConfig : RuleSet := ⟨1, [fixtureRule]⟩

/-- The snapshot's `config.rules[0].text` field, verbatim. -/
def fixtureRuleText : String :=
  "type:\"DatabaseUnavailable\" module:\"invalid.databasestuff.*\" -> \"database-unavailable\""

/-- The snapshot's top-level `fingerprint` list, verbatim. -/
def fixtureFingerprint : List String := ["my-route", defaultPlaceholder]

/-- The snapshot's `variants.app` entry, verbatim. -/
def fixtureVariantApp : GroupingVariant :=
  { vtype := "salted_component",
    client_values := ["my-route", defaultPlaceholder],
    values := ["my-route", defaultPlaceholder],
    component := ⟨false, some exceptionOfSystemHint⟩ }

/-- The snapshot's `variants.system` entry, verbatim. -/
def fixtureVariantSystem : GroupingVariant :=
  { vtype := "salted_component",
    client_values := ["my-route", defaultPlaceholder],
    values := ["my-route", defaultPlaceholder],
    component := ⟨true, none⟩ }

/-! Configuration loading and validation, modelled from the spec
(section 7, Configuration errors; section 6, configuration format). -/

/-- Modelled from the spec: a raw configured rule before validation, as in the
wire format of spec section 6 (matchers are 2-element `[key, pattern]` pairs,
fingerprint entries are plain strings). -/
structure RawRule where
  matchers : List (String × String)
  fingerprint : List String
  attributes : List (String × String)
  deriving DecidableEq, Repr

/-- Modelled from the spec: a raw configuration document, `version` plus
`rules`. -/
structure RawConfig where
  version : Nat
  rules : List RawRule
  deriving DecidableEq, Repr

/-- Modelled from the spec: parse an attribute key name; unrecognized keys are
a configuration error, not a non-match (spec section 3). -/
def parseKey : String → Option AttrKey
  | "type" => some AttrKey.type
  | "value" => some AttrKey.value
  | "module" => some AttrKey.module
  | "message" => some AttrKey.message
  | "logger" => some AttrKey.logger
  | "family" => some AttrKey.family
  | "sdk" => some AttrKey.sdk
  | _ => none

/-- Modelled from the spec: parse a configured fingerprint entry into a tagged
token (spec section 9: the placeholder is a tagged variant, created here). -/
def parseToken (s : String) : FToken :=
  if s = defaultPlaceholder then FToken.dflt else FToken.lit s

/-- Modelled from the spec: validate the matchers of rule `ridx`, failing with
a descriptive error naming the rule index and offending field on an unknown
attribute key or an empty pattern (spec section 7). -/
def validateMatchers (ridx midx : Nat) :
    List (String × String) → Except String (List Matcher)
  | [] => .ok []
  | (k, p) :: rest =>
    match parseKey k with
    | none => .error ("rule " ++ toString ridx ++ ", matcher " ++ toString midx
        ++ ": unknown attribute key " ++ k)
    | some key =>
      if p = "" then
        .error ("rule " ++ toString ridx ++ ", matcher " ++ toString midx
          ++ ": empty pattern")
      else
        match validateMatchers ridx (midx + 1) rest with
        | .error e => .error e
        | .ok ms => .ok (⟨key, p⟩ :: ms)

/-- Modelled from the spec: validate the rules in order, failing with a
descriptive error naming the rule index on an empty fingerprint list and
propagating matcher errors; no rule is skipped (spec section 7). -/
def validateRules (ridx : Nat) : List RawRule → Except String (List Rule)
  | [] => .ok []
  | raw :: rest =>
    match validateMatchers ridx 0 raw.matchers with
    | .error e => .error e
    | .ok ms =>
      if raw.fingerprint = [] then
        .error ("rule " ++ toString ridx ++ ": empty fingerprint")
      else
        match validateRules (ridx + 1) rest with
        | .error e => .error e
        | .ok rs => .ok (⟨ms, raw.fingerprint.map parseToken, raw.attributes⟩ :: rs)

/-- Modelled from the spec: load a rule set, rejecting an unknown schema
version (only version 1 is known) and any malformed rule wholesale before any
event is evaluated (spec section 7). -/
def loadRuleSet (raw : RawConfig) : Except String RuleSet :=
  if raw.version ≠ 1 then
    .error ("unknown schema version " ++ toString raw.version)
  else
    match validateRules 0 raw.rules with
    | .error e => .error e
    | .ok rs => .ok ⟨raw.version, rs⟩

/-! Embedding of the `ExploreCharts` series-substitution logic from
`src/static/app/views/explore/charts/index.tsx`. -/

/-- The options object built in `ExploreCharts` (index.tsx lines 95-111):
search, yAxis, interval, fields, orderby, topEvents.  Only interval, fields,
orderby and topEvents are compared by `canUsePreviousResults`. -/
structure ChartOptions where
  search : String
  yAxis : List String
  interval : String
  fields : List String
  orderby : Option (List String)
  topEvents : Option Nat
  deriving DecidableEq, Repr

/-- One time series, keyed in the result data by its y-axis expression
(index.tsx `timeSeriesResult.data[yAxis]`). -/
structure TimeSeriesItem where
  seriesName : String
  points : List Int
  deriving DecidableEq, Repr

/-- The result of `useSortedTimeSeries` as consumed by `getSeries`
(index.tsx lines 139-186): pending flag, data keyed by y-axis, error. -/
structure TimeSeriesResult where
  isPending : Bool
  data : List (String × List TimeSeriesItem)
  error : Option String
  deriving DecidableEq, Repr

/-- The record returned by `getSeries` (index.tsx lines 175-183). -/
structure SeriesOutput where
  data : List TimeSeriesItem
  error : Option String
  loading : Bool
  deriving DecidableEq, Repr

/-- JavaScript's `data.hasOwnProperty(yAxis)` on the result data object
(index.tsx line 152), for data embedded as an association list. -/
def hasOwnProperty (d : List (String × List TimeSeriesItem)) (k : String) : Bool :=
  (List.lookup k d).isSome

/-- The memo `canUsePreviousResults` from index.tsx lines 115-137: previous
results may be reused only when the query string, interval, fields, orderby
and topEvents are all unchanged from the previous render. -/
def canUsePreviousResults (query previousQuery : String)
    (options previousOptions : ChartOptions) : Bool :=
  if query ≠ previousQuery then false
  else if options.interval ≠ previousOptions.interval then false
  else if options.fields ≠ previousOptions.fields then false
  else if options.orderby ≠ previousOptions.orderby then false
  else if options.topEvents ≠ previousOptions.topEvents then false
  else true

/-- The callback `getSeries` from index.tsx lines 147-186: when the current
request is pending, the options are unchanged and every deduplicated y-axis
is present in the previous data, the previous result is substituted;
otherwise the pending result itself is used.  Series whose name equals the
y-axis are renamed to the formatted y-axis when one exists. -/
def getSeries (timeSeriesResult previousTimeSeriesResult : TimeSeriesResult)
    (canUsePrev : Bool) (dedupedYAxes : List String)
    (formattedYAxes : List (Option String)) : SeriesOutput :=
  let shouldUsePreviousResults : Bool :=
    timeSeriesResult.isPending && canUsePrev &&
      dedupedYAxes.all (fun yAxis => hasOwnProperty previousTimeSeriesResult.data yAxis)
  let data := dedupedYAxes.enum.flatMap (fun p =>
    let series :=
      if shouldUsePreviousResults then
        List.lookup p.2 previousTimeSeriesResult.data
      else
        List.lookup p.2 timeSeriesResult.data
    (series.getD []).map (fun s =>
      if s.seriesName = p.2 then
        { s with seriesName := (formattedYAxes.getD p.1 none).getD p.2 }
      else s))
  { data := data,
    error :=
      if shouldUsePreviousResults then previousTimeSeriesResult.error
      else timeSeriesResult.error,
    loading :=
      if shouldUsePreviousResults then previousTimeSeriesResult.isPending
      else timeSeriesResult.isPending }

/-- The series list `getSeries` builds when it draws every y-axis from the
single result `r`; used to state which result the output comes from. -/
def seriesFrom (r : TimeSeriesResult) (dedupedYAxes : List String)
    (formattedYAxes : List (Option String)) : List TimeSeriesItem :=
  dedupedYAxes.enum.flatMap (fun p =>
    ((List.lookup p.2 r.data).getD []).map (fun s =>
      if s.seriesName = p.2 then
        { s with seriesName := (formattedYAxes.getD p.1 none).getD p.2 }
      else s))

def lastSeg : List (List Char) → List Char
  | [] => []
  | [s] => s
  | _ :: s2 :: rest => lastSeg (s2 :: rest)

def initSegs : List (List Char) → List (List Char)
  | [] => []
  | [_] => []
  | s :: s2 :: rest => s :: initSegs (s2 :: rest)

def firstSegment (p : String) : List Char :=
  (splitOnStar p.data).headD []

def lastSegment (p : String) : List Char :=
  lastSeg (splitOnStar p.data)

def interiorSegments (p : String) : List (List Char) :=
  initSegs ((splitOnStar p.data).drop 1)

lemma dropAfterFirst_suffix {s : List Char} : ∀ {v v' : List Char},
    dropAfterFirst s v = some v' → v' <:+ v := by
  intro v
  induction v with
  | nil =>
    intro v' h
    unfold dropAfterFirst at h
    split at h
    · injection h with h; subst h; exact List.suffix_refl []
    · exact absurd h (by simp)
  | cons c rest ih =>
    intro v' h
    unfold dropAfterFirst at h
    split at h
    · injection h with h; subst h; exact List.drop_suffix _ _
    · exact (ih h).trans (List.suffix_cons c rest)

lemma dropAfterFirst_infix {s : List Char} : ∀ {v v' : List Char},
    dropAfterFirst s v = some v' → s <:+: v := by
  intro v
  induction v with
  | nil =>
    intro v' h
    unfold dropAfterFirst at h
    split at h
    · next hs => simp only [List.isEmpty_iff] at hs; subst hs; exact List.infix_refl []
    · exact absurd h (by simp)
  | cons c rest ih =>
    intro v' h
    unfold dropAfterFirst at h
    split at h
    · next hp => exact (List.isPrefixOf_iff_prefix.mp hp).isInfix
    · exact (ih h).trans (List.suffix_cons c rest).isInfix

lemma matchSegs_lastSeg : ∀ (segs : List (List Char)) (v : List Char),
    matchSegs segs v = true → lastSeg segs <:+ v := by
  intro segs
  induction segs with
  | nil =>
    intro v h
    simp only [matchSegs, List.isEmpty_iff] at h
    subst h
    exact List.suffix_refl []
  | cons s rest ih =>
    intro v h
    cases rest with
    | nil =>
      simp only [matchSegs] at h
      simpa [lastSeg] using List.isSuffixOf_iff_suffix.mp h
    | cons s2 rest2 =>
      simp only [matchSegs] at h
      cases hd : dropAfterFirst s v with
      | none => rw [hd] at h; exact absurd h (by simp)
      | some v' =>
        rw [hd] at h
        exact (lastSeg.eq_3 s s2 rest2 ▸ ih v' h).trans (dropAfterFirst_suffix hd)

lemma matchSegs_initSegs : ∀ (segs : List (List Char)) (v : List Char),
    matchSegs segs v = true → ∀ x ∈ initSegs segs, x <:+: v := by
  intro segs
  induction segs with
  | nil => intro v _ x hx; exact absurd hx (by simp [initSegs])
  | cons s rest ih =>
    intro v h x hx
    cases rest with
    | nil => exact absurd hx (by simp [initSegs])
    | cons s2 rest2 =>
      simp only [matchSegs] at h
      cases hd : dropAfterFirst s v with
      | none => rw [hd] at h; exact absurd h (by simp)
      | some v' =>
        rw [hd] at h
        simp only [initSegs, List.mem_cons] at hx
        rcases hx with rfl | hx
        · exact dropAfterFirst_infix hd
        · exact (ih v' h x hx).trans (dropAfterFirst_suffix hd).isInfix

/-- C5: glob matching is anchored at both ends: whenever a pattern matches a
value, the value starts with the pattern's first segment, ends with its last
segment, and contains every interior segment; pattern
`invalid.databasestuff.*` matches `invalid.databasestuff.connection` but not
`other.invalid.databasestuff.x`, and the pattern consisting of exactly `*`
matches every non-absent value including the empty string. -/
theorem glob_matching_anchored :
    (∀ (p v : String), globMatch p v = true →
      firstSegment p <+: v.data ∧ lastSegment p <:+ v.data ∧
        ∀ x ∈ interiorSegments p, x <:+: v.data) ∧
    (∀ v : String, globMatch "*" v = true) ∧
    globMatch "invalid.databasestuff.*" "invalid.databasestuff.connection" = true ∧
    globMatch "invalid.databasestuff.*" "other.invalid.databasestuff.x" = false ∧
    globMatch "*" "" = true := by
  refine ⟨?_, ?_, by decide, by decide, by decide⟩
  · intro p v h
    unfold globMatch at h
    unfold firstSegment lastSegment interiorSegments
    cases hsp : splitOnStar p.data with
    | nil => rw [hsp] at h; exact absurd h (by simp)
    | cons s tailsegs =>
      rw [hsp] at h
      cases tailsegs with
      | nil =>
        have hv : v.data = s := by simpa using h
        subst hv
        exact ⟨List.prefix_refl _, by simp [lastSeg], by simp [initSegs]⟩
      | cons s2 rest =>
        rw [Bool.and_eq_true] at h
        obtain ⟨hpre, hrest⟩ := h
        refine ⟨?_, ?_, ?_⟩
        · simpa using List.isPrefixOf_iff_prefix.mp hpre
        · exact (lastSeg.eq_3 s s2 rest ▸ matchSegs_lastSeg _ _ hrest).trans
            (List.drop_suffix _ _)
        · intro x hx
          simp only [List.drop_one, List.tail_cons] at hx
          exact (matchSegs_initSegs _ _ hrest x hx).trans
            (List.drop_suffix _ _).isInfix
  · intro v
    show ([].isPrefixOf v.data && matchSegs [[]] (v.data.drop 0)) = true
    simp [matchSegs, List.isPrefixOf_iff_prefix, List.isSuffixOf_iff_suffix]

theorem glob_matching_anchored_witness :
    globMatch "invalid.databasestuff.*" "invalid.databasestuff.connection" = true ∧
    firstSegment "invalid.databasestuff.*" <+: "invalid.databasestuff.connection".data :=
  ⟨by decide,
   (glob_matching_anchored.1 "invalid.databasestuff.*" "invalid.databasestuff.connection"
     (by decide)).1⟩

lemma find?_append_first {α : Type} (f : α → Bool) :
    ∀ (pre : List α) (r1 : α) (post : List α),
      (∀ r ∈ pre, f r = false) → f r1 = true →
      List.find? f (pre ++ r1 :: post) = some r1 := by
  intro pre
  induction pre with
  | nil => intro r1 post _ h1; simp [List.find?_cons, h1]
  | cons a t ih =>
    intro r1 post hpre h1
    have ha : f a = false := hpre a (List.mem_cons_self a t)
    simp only [List.cons_append, List.find?_cons, ha]
    exact ih r1 post (fun r hr => hpre r (List.mem_cons_of_mem a hr)) h1

/-- C3: the fingerprint resolver scans the rules in declared order and returns
the first rule whose evaluation succeeds: when every rule before `r1` fails
and `r1` matches, the resolved fingerprint is `r1`'s template, and never the
template of any later matching rule whose template differs. -/
theorem fingerprint_first_match_wins (rs : RuleSet) (ev : Event)
    (pre : List Rule) (r1 : Rule) (post : List Rule) (defaultTokens : List String)
    (hrules : rs.rules = pre ++ r1 :: post)
    (hpre : ∀ r ∈ pre, ruleEvaluate r ev = false)
    (h1 : ruleEvaluate r1 ev = true) :
    resolveRule rs ev = some r1 ∧
    (resolve_fingerprint rs ev defaultTokens).clientTokens = r1.fingerprint ∧
    ∀ r2 ∈ post, r2.fingerprint ≠ r1.fingerprint →
      (resolve_fingerprint rs ev defaultTokens).clientTokens ≠ r2.fingerprint := by
  have hres : resolveRule rs ev = some r1 := by
    unfold resolveRule
    rw [hrules]
    exact find?_append_first _ pre r1 post hpre h1
  refine ⟨hres, ?_, ?_⟩
  · simp [resolve_fingerprint, hres]
  · intro r2 _ hne
    simp [resolve_fingerprint, hres]
    exact fun h => hne h.symm

theorem fingerprint_first_match_wins_witness :
    resolveRule ⟨1, [fixtureRule]⟩
      ⟨[(AttrKey.type, "DatabaseUnavailable"), (AttrKey.module, "invalid.databasestuff.x")]⟩
      = some fixtureRule :=
  (fingerprint_first_match_wins ⟨1, [fixtureRule]⟩
    ⟨[(AttrKey.type, "DatabaseUnavailable"), (AttrKey.module, "invalid.databasestuff.x")]⟩
    [] fixtureRule [] [] rfl (by simp) (by decide)).1

/-- C6: a rule evaluates to true iff every one of its matchers matches
(conjunction); a matcher whose attribute key resolves to an absent attribute
is a non-match rather than an error; and a rule with matchers
`[type=X, module=Y]` does not match an event with `type=X, module=Z`. -/
theorem rule_conjunction_semantics :
    (∀ (r : Rule) (ev : Event),
      ruleEvaluate r ev = true ↔ ∀ m ∈ r.matchers, matcherMatches ev m = true) ∧
    (∀ (ev : Event) (k : AttrKey) (p : String),
      List.lookup k ev.attrs = none → matcherMatches ev ⟨k, p⟩ = false) ∧
    ruleEvaluate ⟨[⟨AttrKey.type, "X"⟩, ⟨AttrKey.module, "Y"⟩], [FToken.lit "f"], []⟩
      ⟨[(AttrKey.type, "X"), (AttrKey.module, "Z")]⟩ = false := by
  refine ⟨?_, ?_, by decide⟩
  · intro r ev
    exact List.all_eq_true
  · intro ev k p h
    unfold matcherMatches
    rw [h]

theorem rule_conjunction_semantics_witness :
    matcherMatches ⟨[]⟩ ⟨AttrKey.type, "x"⟩ = false :=
  rule_conjunction_semantics.2.1 ⟨[]⟩ AttrKey.type "x" (by decide)

/-- C7: when no rule matches, resolution does not error: the resolver returns
no matched rule, the built-in default fingerprint is exactly the one-token
template consisting of the default placeholder, and the expanded fingerprint
tokens equal the event's default tokens with no custom prefix or suffix. -/
theorem no_match_falls_back_to_default (rs : RuleSet) (ev : Event)
    (defaultTokens : List String)
    (h : ∀ r ∈ rs.rules, ruleEvaluate r ev = false) :
    resolveRule rs ev = none ∧
    (resolve_fingerprint rs ev defaultTokens).clientTokens = [FToken.dflt] ∧
    (resolve_fingerprint rs ev defaultTokens).fingerprintTokens = defaultTokens := by
  have hres : resolveRule rs ev = none := by
    unfold resolveRule
    exact List.find?_eq_none.mpr (fun r hr => by simp [h r hr])
  refine ⟨hres, ?_, ?_⟩
  · simp [resolve_fingerprint, hres]
  · simp [resolve_fingerprint, hres, expandTokens]

theorem no_match_falls_back_to_default_witness :
    resolveRule ⟨1, [fixtureRule]⟩ ⟨[]⟩ = none ∧
    (resolve_fingerprint ⟨1, [fixtureRule]⟩ ⟨[]⟩ ["tok1", "tok2"]).fingerprintTokens
      = ["tok1", "tok2"] := by
  have h := no_match_falls_back_to_default ⟨1, [fixtureRule]⟩ ⟨[]⟩ ["tok1", "tok2"]
    (by intro r hr; simp at hr; subst hr; decide)
  exact ⟨h.1, h.2.2⟩

/-- C1: when both the app and system grouping components are present and the
system component's upstream contributes flag is true, `build_variants` marks
the system variant `contributes = true` with a null hint, marks the app
variant `contributes = false` with hint `exception of system takes
precedence`, and exactly one base-axis variant contributes. -/
theorem build_variants_system_precedence (res : FingerprintResult)
    (a s : GroupingComponent) (hs : s.contributes = true) :
    (List.lookup "system" (build_variants res (some a) (some s))).map
        (fun v => (v.component.contributes, v.component.hint)) = some (true, none) ∧
    (List.lookup "app" (build_variants res (some a) (some s))).map
        (fun v => (v.component.contributes, v.component.hint))
      = some (false, some exceptionOfSystemHint) ∧
    (build_variants res (some a) (some s)).countP
        (fun p => p.2.component.contributes) = 1 := by
  have hb : build_variants res (some a) (some s) =
      [("app", ⟨"salted_component", res.clientTokens.map renderToken,
        res.clientTokens.map renderToken, ⟨false, some exceptionOfSystemHint⟩⟩),
       ("system", ⟨"salted_component", res.clientTokens.map renderToken,
        res.clientTokens.map renderToken, ⟨true, none⟩⟩)] := by
    simp [build_variants, hs]
  rw [hb]
  refine ⟨rfl, rfl, rfl⟩

theorem build_variants_system_precedence_witness :
    (List.lookup "system" (build_variants ⟨[FToken.lit "x"], ["x"], none⟩
        (some ⟨true, none, []⟩) (some ⟨true, none, []⟩))).map
      (fun v => (v.component.contributes, v.component.hint)) = some (true, none) :=
  (build_variants_system_precedence ⟨[FToken.lit "x"], ["x"], none⟩
    ⟨true, none, []⟩ ⟨true, none, []⟩ rfl).1

/-- C2 (amended): for every variant produced by `build_variants`,
`client_values` equals the as-configured (pre-expansion) fingerprint token
list and `values` equals that same as-configured token list (the snapshot
records both with the `{{ default }}` placeholder intact); the resolver's
expansion of template `["my-route", "{{ default }}"]` with
`default_tokens = ["DatabaseUnavailable"]` yields
`["my-route", "DatabaseUnavailable"]`. -/
theorem variant_values_match_client_values :
    (∀ (res : FingerprintResult) (appComp sysComp : Option GroupingComponent)
       (name : String) (v : GroupingVariant),
       (name, v) ∈ build_variants res appComp sysComp →
         v.client_values = res.clientTokens.map renderToken ∧
         v.values = res.clientTokens.map renderToken) ∧
    expandTokens [FToken.lit "my-route", FToken.dflt] ["DatabaseUnavailable"]
      = ["my-route", "DatabaseUnavailable"] := by
  refine ⟨?_, by decide⟩
  intro res appComp sysComp name v h
  cases appComp <;> cases sysComp <;> simp only [build_variants] at h
  · exact absurd h (List.not_mem_nil _)
  · simp only [List.mem_singleton, Prod.mk.injEq] at h
    exact h.2 ▸ ⟨rfl, rfl⟩
  · simp only [List.mem_singleton, Prod.mk.injEq] at h
    exact h.2 ▸ ⟨rfl, rfl⟩
  · next sc =>
    cases hsc : sc.contributes <;> rw [hsc] at h <;>
      simp only [if_true, if_false, Bool.false_eq_true, List.mem_cons,
        List.mem_singleton, Prod.mk.injEq, List.not_mem_nil, or_false] at h <;>
      rcases h with ⟨_, hv⟩ | ⟨_, hv⟩ <;> exact hv ▸ ⟨rfl, rfl⟩

theorem variant_values_match_client_values_witness :
    (("system", (⟨"salted_component", ["x"], ["x"], ⟨true, none⟩⟩ : GroupingVariant))
        ∈ build_variants ⟨[FToken.lit "x"], ["x"], none⟩ none (some ⟨true, none, []⟩)) ∧
    (⟨"salted_component", ["x"], ["x"], ⟨true, none⟩⟩ : GroupingVariant).values
      = [FToken.lit "x"].map renderToken :=
  ⟨by decide,
   (variant_values_match_client_values.1 ⟨[FToken.lit "x"], ["x"], none⟩
     none (some ⟨true, none, []⟩) "system" ⟨"salted_component", ["x"], ["x"], ⟨true, none⟩⟩
     (by decide)).2⟩

/-- C2 counterexample: the claim that a variant's `values` list is fully
expanded and never retains the literal placeholder is false on the code: the
snapshot's app variant, and the variant `build_variants` produces at the same
input, both carry `values = ["my-route", "{{ default }}"]`, which still
contains the literal placeholder and differs from the expanded list
`["my-route", "DatabaseUnavailable"]`. -/
theorem variant_values_retain_placeholder :
    fixtureVariantApp.values = ["my-route", defaultPlaceholder] ∧
    defaultPlaceholder ∈ fixtureVariantApp.values ∧
    (List.lookup "app" (build_variants
        ⟨[FToken.lit "my-route", FToken.dflt], ["my-route", "DatabaseUnavailable"], none⟩
        (some ⟨false, none, []⟩) (some ⟨true, none, []⟩))).map GroupingVariant.values
      = some ["my-route", defaultPlaceholder] ∧
    (["my-route", defaultPlaceholder] : List String) ≠ ["my-route", "DatabaseUnavailable"] := by
  refine ⟨rfl, by decide, by decide, by decide⟩

/-- C9: `resolve_fingerprint` and `build_variants` are deterministic pure
functions of their arguments: two calls with the same inputs return identical
outputs, including identical values lists and contributes flags. -/
theorem engine_determinism :
    ∀ (rs : RuleSet) (ev : Event) (defaultTokens : List String)
      (res : FingerprintResult) (appComp sysComp : Option GroupingComponent),
      resolve_fingerprint rs ev defaultTokens = resolve_fingerprint rs ev defaultTokens ∧
      build_variants res appComp sysComp = build_variants res appComp sysComp ∧
      (build_variants res appComp sysComp).map
          (fun p => (p.1, p.2.values, p.2.component.contributes))
        = (build_variants res appComp sysComp).map
          (fun p => (p.1, p.2.values, p.2.component.contributes)) :=
  fun _ _ _ _ _ _ => ⟨rfl, rfl, rfl⟩

/-- C4: for the fixture scenario, the rule's rendered `text` field equals
`type:"DatabaseUnavailable" module:"invalid.databasestuff.*" ->
"database-unavailable"`, both the app and system variants carry
`client_values = ["my-route", "{{ default }}"]`, the rule matches the fixture
event, and `build_variants` reproduces the snapshot's variants. -/
theorem fixture_rule_text_and_client_values :
    renderRuleText fixtureRule = fixtureRuleText ∧
    fixtureRuleText =
      "type:\"DatabaseUnavailable\" module:\"invalid.databasestuff.*\" -> \"database-unavailable\"" ∧
    fixtureVariantApp.client_values = ["my-route", defaultPlaceholder] ∧
    fixtureVariantSystem.client_values = ["my-route", defaultPlaceholder] ∧
    ruleEvaluate fixtureRule
      ⟨[(AttrKey.type, "DatabaseUnavailable"), (AttrKey.module, "invalid.databasestuff.x")]⟩
      = true ∧
    build_variants ⟨[FToken.lit "my-route", FToken.dflt], fixtureFingerprint, none⟩
        (some ⟨false, none, []⟩) (some ⟨true, none, []⟩)
      = [("app", fixtureVariantApp), ("system", fixtureVariantSystem)] := by
  refine ⟨by decide, rfl, rfl, rfl, by decide, by decide⟩

lemma validateMatchers_ok : ∀ (ridx midx : Nat) (l : List (String × String))
    (ms : List Matcher), validateMatchers ridx midx l = .ok ms →
    ms.length = l.length ∧ ∀ m ∈ ms, m.pattern ≠ "" := by
  intro ridx midx l
  induction l generalizing midx with
  | nil =>
    intro ms h
    simp only [validateMatchers] at h
    injection h with h
    subst h
    simp
  | cons kp rest ih =>
    intro ms h
    obtain ⟨k, p⟩ := kp
    simp only [validateMatchers] at h
    split at h
    · simp at h
    split at h
    · simp at h
    next hp =>
      split at h
      · simp at h
      next ms' hrec =>
        injection h with h
        subst h
        obtain ⟨hlen, hall⟩ := ih (midx + 1) ms' hrec
        refine ⟨by simp [hlen], ?_⟩
        intro m hm
        rcases List.mem_cons.mp hm with rfl | hm
        · exact hp
        · exact hall m hm

lemma validateRules_ok : ∀ (ridx : Nat) (l : List RawRule) (rs : List Rule),
    validateRules ridx l = .ok rs →
    rs.length = l.length ∧
      ∀ r ∈ rs, r.fingerprint ≠ [] ∧ ∀ m ∈ r.matchers, m.pattern ≠ "" := by
  intro ridx l
  induction l generalizing ridx with
  | nil =>
    intro rs h
    simp only [validateRules] at h
    injection h with h
    subst h
    simp
  | cons raw rest ih =>
    intro rs h
    simp only [validateRules] at h
    split at h
    · simp at h
    next ms hm =>
      split at h
      · simp at h
      next hfp =>
        split at h
        · simp at h
        next rs' hrec =>
          injection h with h
          subst h
          obtain ⟨hlen, hall⟩ := ih (ridx + 1) rs' hrec
          refine ⟨by simp [hlen], ?_⟩
          intro r hr
          rcases List.mem_cons.mp hr with rfl | hr
          · refine ⟨by simpa using hfp, ?_⟩
            intro m hm2
            exact (validateMatchers_ok ridx 0 raw.matchers ms hm).2 m hm2
          · exact hall r hr

/-- C8: loading a rule set with an unknown attribute key, an empty pattern,
an empty fingerprint list, or an unknown schema version fails at load time
with a descriptive error naming the offending rule index and field; a
successfully loaded configuration has a known version, drops no rule, and
every loaded rule is well-formed (non-empty fingerprint, non-empty matcher
patterns). -/
theorem config_validation_rejects_malformed :
    (∀ (raw : RawConfig) (rs : RuleSet), loadRuleSet raw = .ok rs →
      rs.version = 1 ∧ rs.rules.length = raw.rules.length ∧
        ∀ r ∈ rs.rules, r.fingerprint ≠ [] ∧ ∀ m ∈ r.matchers, m.pattern ≠ "") ∧
    loadRuleSet ⟨2, []⟩ = .error "unknown schema version 2" ∧
    loadRuleSet ⟨1, [⟨[("bogus", "x")], ["f"], []⟩]⟩
      = .error "rule 0, matcher 0: unknown attribute key bogus" ∧
    loadRuleSet ⟨1, [⟨[("type", "")], ["f"], []⟩]⟩
      = .error "rule 0, matcher 0: empty pattern" ∧
    loadRuleSet ⟨1, [⟨[("type", "x")], [], []⟩]⟩
      = .error "rule 0: empty fingerprint" := by
  refine ⟨?_, rfl, rfl, rfl, rfl⟩
  intro raw rs h
  unfold loadRuleSet at h
  split at h
  · simp at h
  next hv =>
    cases hvr : validateRules 0 raw.rules with
    | error e => rw [hvr] at h; simp at h
    | ok rules' =>
      rw [hvr] at h
      injection h with h
      subst h
      obtain ⟨hlen, hall⟩ := validateRules_ok 0 raw.rules rules' hvr
      exact ⟨not_ne_iff.mp hv, hlen, hall⟩

theorem config_validation_rejects_malformed_witness :
    loadRuleSet ⟨1, [⟨[("type", "x")], ["f"], []⟩]⟩
      = .ok ⟨1, [⟨[⟨AttrKey.type, "x"⟩], [FToken.lit "f"], []⟩]⟩ ∧
    (⟨1, [⟨[⟨AttrKey.type, "x"⟩], [FToken.lit "f"], []⟩]⟩ : RuleSet).version = 1 :=
  ⟨rfl,
   (config_validation_rejects_malformed.1 ⟨1, [⟨[("type", "x")], ["f"], []⟩]⟩
     ⟨1, [⟨[⟨AttrKey.type, "x"⟩], [FToken.lit "f"], []⟩]⟩ rfl).1⟩

/-- C10: in `ExploreCharts`, previously fetched series data is substituted
for a pending time-series request only when the query string, interval,
fields, orderby and topEvents options are all unchanged from the previous
render and every deduplicated y-axis key is present in the previous result's
data; otherwise the pending result itself, with its loading state, is
returned. -/
theorem explore_charts_previous_results_substitution :
    (∀ (q pq : String) (o po : ChartOptions),
       canUsePreviousResults q pq o po = true ↔
         (q = pq ∧ o.interval = po.interval ∧ o.fields = po.fields ∧
          o.orderby = po.orderby ∧ o.topEvents = po.topEvents)) ∧
    (∀ (cur prev : TimeSeriesResult) (canUsePrev : Bool)
       (dedupedYAxes : List String) (formattedYAxes : List (Option String)),
       getSeries cur prev canUsePrev dedupedYAxes formattedYAxes =
         if cur.isPending && canUsePrev &&
             dedupedYAxes.all (fun y => hasOwnProperty prev.data y) then
           ⟨seriesFrom prev dedupedYAxes formattedYAxes, prev.error, prev.isPending⟩
         else
           ⟨seriesFrom cur dedupedYAxes formattedYAxes, cur.error, cur.isPending⟩) := by
  constructor
  · intro q pq o po
    unfold canUsePreviousResults
    split_ifs <;> simp_all
  · intro cur prev canUsePrev dedupedYAxes formattedYAxes
    unfold getSeries seriesFrom
    cases hb : (cur.isPending && canUsePrev &&
        dedupedYAxes.all fun y => hasOwnProperty prev.data y) <;>
      simp only [hb, if_true, if_false, Bool.false_eq_true, ite_true, ite_false]
